import Mathlib

/-!
Verification of `scripts/dev-server.py` (CannonPop auto-reload development
server): a shallow embedding of the file-watch / debounce / server-supervisor
logic, with theorems checking the specification's claims against it.

Conventions of the embedding:
* Python strings are `List Char`; wall-clock times (`time.time()`) are
  rationals (`ℚ`).
* External nondeterminism (whether `subprocess.Popen` raises, whether the
  child exits within the `wait(timeout=5)` window) is passed in as explicit
  boolean parameters.
* Side effects on the operating system (signals sent, processes spawned,
  sleeps) are returned as an explicit trace of `Action`s, and the set of live
  child processes is threaded through as a `World`.
-/

namespace CannonPop

/-! ## Strings and paths

`ReloadHandler.on_modified` computes `Path(event.src_path).suffix.lower()`.
We embed the relevant fragment of `pathlib` and `str.lower`. -/

/-- Model of Python `str.lower` at a single character, on the ASCII fragment:
uppercase `A`–`Z` maps to `a`–`z`, everything else is unchanged.  (Full
Unicode lowering differs only on characters that cannot affect membership in
the ASCII-only extension allow-set below.) -/
def lowerChar (c : Char) : Char :=
  match c with
  | 'A' => 'a' | 'B' => 'b' | 'C' => 'c' | 'D' => 'd' | 'E' => 'e'
  | 'F' => 'f' | 'G' => 'g' | 'H' => 'h' | 'I' => 'i' | 'J' => 'j'
  | 'K' => 'k' | 'L' => 'l' | 'M' => 'm' | 'N' => 'n' | 'O' => 'o'
  | 'P' => 'p' | 'Q' => 'q' | 'R' => 'r' | 'S' => 's' | 'T' => 't'
  | 'U' => 'u' | 'V' => 'v' | 'W' => 'w' | 'X' => 'x' | 'Y' => 'y'
  | 'Z' => 'z'
  | c => c

/-- Model of Python `str.lower` on a whole string. -/
def lowerStr (s : List Char) : List Char :=
  s.map lowerChar

/-- Split a POSIX path at `/` separators (model of `pathlib` parsing). -/
def splitOnSlash : List Char → List (List Char)
  | [] => [[]]
  | c :: rest =>
    match splitOnSlash rest with
    | [] => [[]]
    | h :: t => if c = '/' then [] :: h :: t else (c :: h) :: t

/-- `pathlib` keeps a path component only if it is non-empty and not `.`. -/
def keepComp (c : List Char) : Bool :=
  !(c = [] || c = ['.'])

/-- Model of `PurePosixPath(p).name`: the last retained component. -/
def pathName (p : List Char) : List Char :=
  ((splitOnSlash p).filter keepComp).getLastD []

/-- Index of the last `.` in a string, if any (model of `str.rfind('.')`
restricted to the found case). -/
def lastDotIdx : List Char → Option Nat
  | [] => none
  | c :: rest =>
    match lastDotIdx rest with
    | some i => some (i + 1)
    | none => if c = '.' then some 0 else none

/-- Model of `PurePath.suffix` on a file name: the substring from the last
dot onward, provided that dot is neither the first nor the last character;
otherwise the empty string. -/
def pySuffix (name : List Char) : List Char :=
  match lastDotIdx name with
  | none => []
  | some i => if 0 < i ∧ i + 1 < name.length then name.drop i else []

/-- `Path(src_path).suffix.lower()` as computed by `on_modified`. -/
def suffixLower (src_path : List Char) : List Char :=
  lowerStr (pySuffix (pathName src_path))

/-! ## ReloadHandler -/

/-- The allow-set of `on_modified`:
`{'.html', '.js', '.css', '.json', '.md', '.ts', '.svelte'}`. -/
def relevant_extensions : List (List Char) :=
  [".html".toList, ".js".toList, ".css".toList, ".json".toList,
   ".md".toList, ".ts".toList, ".svelte".toList]

/-- A watchdog filesystem event: a source path and a directory flag. -/
structure FSEvent where
  is_directory : Bool
  src_path : List Char
  deriving DecidableEq, Repr

/-- The mutable state of a `ReloadHandler`: the timestamp of the last
accepted (restart-triggering) event.  `debounce_delay` is the constant `1`
and is kept separately below. -/
structure ReloadHandler where
  last_restart : ℚ
  deriving DecidableEq, Repr

/-- `self.debounce_delay = 1  # 1 second debounce`. -/
def debounce_delay : ℚ := 1

/-- `ReloadHandler.__init__`: `self.last_restart = 0`. -/
def ReloadHandler.init : ReloadHandler :=
  { last_restart := 0 }

/-- `ReloadHandler.on_modified`, given the current wall-clock time.  Returns
the updated handler state and the number of times `restart_callback` was
invoked (0 or 1). -/
def on_modified (s : ReloadHandler) (event : FSEvent) (current_time : ℚ) :
    ReloadHandler × Nat :=
  if event.is_directory then (s, 0)
  else if suffixLower event.src_path ∈ relevant_extensions then
    if current_time - s.last_restart > debounce_delay then
      ({ last_restart := current_time }, 1)
    else (s, 0)
  else (s, 0)

/-- The kinds of filesystem events watchdog delivers to a handler. -/
inductive EventKind where
  | created
  | deleted
  | modified
  | moved
  deriving DecidableEq, Repr

/-- Event dispatch for `ReloadHandler`: it overrides only `on_modified`;
`on_created`, `on_deleted` and `on_moved` fall through to the
`FileSystemEventHandler` base class, whose handlers are no-ops. -/
def handleEvent (s : ReloadHandler) (kind : EventKind) (event : FSEvent)
    (current_time : ℚ) : ReloadHandler × Nat :=
  match kind with
  | .modified => on_modified s event current_time
  | _ => (s, 0)

/-! ## DevServer (server supervisor)

`subprocess.Popen` handles are modelled as `Proc` values carrying a pid.
The `World` tracks which child pids are currently running and the next
fresh pid; `Action`s record what the supervisor did to the outside world. -/

/-- A `subprocess.Popen` handle. -/
structure Proc where
  pid : Nat
  deriving DecidableEq, Repr

/-- Externally visible operations performed by the supervisor.
`spawnFailed` records that `subprocess.Popen` raised and the exception was
caught and reported to the console. -/
inductive Action where
  | terminate (pid : Nat)
  | waitExited (pid : Nat)
  | waitTimeout (pid : Nat)
  | kill (pid : Nat)
  | spawn (pid : Nat)
  | spawnFailed
  | sleep (seconds : ℚ)
  deriving DecidableEq, Repr

/-- The operating-system state the supervisor acts on: the pids of running
child processes and a fresh-pid counter. -/
structure World where
  alive : List Nat
  nextPid : Nat
  deriving DecidableEq, Repr

/-- `DevServer.__init__`: the port and the (optional) child-process handle
`self.server_process`. -/
structure DevServer where
  port : Nat
  server_process : Option Proc
  deriving DecidableEq, Repr

/-- `DevServer.stop_server`, with `exitsInTime` telling whether the child
exits within the 5-second `wait` window after `terminate()`.  If it does
not, `subprocess.TimeoutExpired` is caught and `kill()` is issued; in either
case `self.server_process = None` afterward. -/
def stop_server (s : DevServer) (w : World) (exitsInTime : Bool) :
    DevServer × World × List Action :=
  match s.server_process with
  | none => (s, w, [])
  | some p =>
    if exitsInTime then
      ({ s with server_process := none },
       { w with alive := w.alive.filter (· ≠ p.pid) },
       [.terminate p.pid, .waitExited p.pid])
    else
      ({ s with server_process := none },
       { w with alive := w.alive.filter (· ≠ p.pid) },
       [.terminate p.pid, .waitTimeout p.pid, .kill p.pid])

/-- `DevServer.start_server`, with `spawnSucceeds` telling whether
`subprocess.Popen` succeeds and `stopExitsInTime` feeding the internal
`stop_server` call (taken when a handle already exists).  A spawn failure is
caught: it is reported and `self.server_process` keeps the value it had
after the internal stop (always `None` at that point). -/
def start_server (s : DevServer) (w : World) (spawnSucceeds : Bool)
    (stopExitsInTime : Bool) : DevServer × World × List Action :=
  let (s1, w1, tr1) :=
    if s.server_process.isSome then stop_server s w stopExitsInTime
    else (s, w, [])
  if spawnSucceeds then
    ({ s1 with server_process := some ⟨w1.nextPid⟩ },
     { w1 with alive := w1.nextPid :: w1.alive, nextPid := w1.nextPid + 1 },
     tr1 ++ [.spawn w1.nextPid])
  else
    (s1, w1, tr1 ++ [.spawnFailed])

/-- `DevServer.restart_server`: `stop_server(); time.sleep(0.5);
start_server()`. -/
def restart_server (s : DevServer) (w : World) (stopExitsInTime : Bool)
    (spawnSucceeds : Bool) : DevServer × World × List Action :=
  let (s1, w1, tr1) := stop_server s w stopExitsInTime
  let (s2, w2, tr2) := start_server s1 w1 spawnSucceeds stopExitsInTime
  (s2, w2, tr1 ++ [.sleep (1/2)] ++ tr2)

/-- Supervisor/world consistency: every live child pid is the one held by
the handle, pids are below the fresh-pid counter, and the live list has no
duplicates.  It implies at most one live child process. -/
def Inv (s : DevServer) (w : World) : Prop :=
  (∀ q ∈ w.alive, s.server_process = some ⟨q⟩) ∧
  w.alive.Nodup ∧
  (∀ q ∈ w.alive, q < w.nextPid) ∧
  (∀ p : Proc, s.server_process = some p → p.pid < w.nextPid)

/-! ## Main loop and interrupt handling -/

/-- The watchdog `Observer`: whether `stop()` and `join()` have been called
on it. -/
structure WatchObserver where
  stopped : Bool
  joined : Bool
  deriving DecidableEq, Repr

/-- The exception that reaches the main thread's `time.sleep(1)` loop when
SIGINT arrives. -/
inductive MainException where
  | keyboardInterrupt
  | systemExit
  deriving DecidableEq, Repr

/-- Python signal semantics for this program.  `__main__` installs
`signal_handler`, which calls `sys.exit(0)`: with it installed, SIGINT makes
the main thread raise `SystemExit`; with the default handler, SIGINT raises
`KeyboardInterrupt`. -/
def interruptException (customHandlerInstalled : Bool) : MainException :=
  if customHandlerInstalled then .systemExit else .keyboardInterrupt

/-- The state of the whole program while `run`'s main loop is sleeping. -/
structure RunState where
  server : DevServer
  observer : Option WatchObserver
  world : World
  deriving DecidableEq, Repr

/-- What `DevServer.run` does from the main loop onward when the interrupt
arrives, raising `exc` out of `time.sleep(1)`.  Only `KeyboardInterrupt` is
caught by the `except` clause, so only then do the cleanup lines
(`observer.stop()`, `observer.join()`, `stop_server()`) execute; any other
exception (in particular the `SystemExit` raised by `signal_handler`)
propagates and the cleanup is skipped — the watcher thread is a daemon
thread and dies unjoined, and the child process is left running.  The
returned `Bool` is whether the cleanup block ran. -/
def run_on_interrupt (exc : MainException) (st : RunState)
    (exitsInTime : Bool) : RunState × Bool :=
  match exc with
  | .keyboardInterrupt =>
    let obs := st.observer.map fun _ => { stopped := true, joined := true }
    let (s, w, _) := stop_server st.server st.world exitsInTime
    ({ server := s, observer := obs, world := w }, true)
  | .systemExit =>
    (st, false)

/-! ## Claim theorems: server supervisor -/

/-- Claim C7: calling `stop_server` when no process handle exists is a no-op:
nothing is raised (the embedding is total), no action is performed on any
process, and both the supervisor state (still STOPPED, i.e. no handle) and
the world are unchanged. -/
theorem claim_C7_stop_is_noop_when_stopped (s : DevServer) (w : World)
    (b : Bool) (h : s.server_process = none) :
    stop_server s w b = (s, w, []) := by
  unfold stop_server
  rw [h]

theorem claim_C7_witness :
    ((⟨8081, none⟩ : DevServer).server_process = none) ∧
    stop_server ⟨8081, none⟩ ⟨[], 0⟩ true = (⟨8081, none⟩, ⟨[], 0⟩, []) :=
  ⟨rfl, claim_C7_stop_is_noop_when_stopped ⟨8081, none⟩ ⟨[], 0⟩ true rfl⟩

/-- Claim C6: for a running child process, `stop_server` sends the graceful
`terminate`; if the child does not exit within the 5-second `wait` window
(`exitsInTime = false`) the `TimeoutExpired` is caught — never fatal — and
the child is force-killed; in all cases the handle is cleared afterward and
the child is no longer running. -/
theorem claim_C6_stop_timeout_force_kills (s : DevServer) (w : World)
    (p : Proc) (b : Bool) (h : s.server_process = some p) :
    (stop_server s w b).1.server_process = none ∧
    p.pid ∉ (stop_server s w b).2.1.alive ∧
    (b = false →
      (stop_server s w b).2.2 =
        [.terminate p.pid, .waitTimeout p.pid, .kill p.pid]) ∧
    (b = true →
      (stop_server s w b).2.2 = [.terminate p.pid, .waitExited p.pid]) := by
  unfold stop_server
  rw [h]
  cases b <;> simp [List.mem_filter]

theorem claim_C6_witness :
    ((⟨8081, some ⟨3⟩⟩ : DevServer).server_process = some ⟨3⟩) ∧
    ((stop_server ⟨8081, some ⟨3⟩⟩ ⟨[3], 4⟩ false).1.server_process = none ∧
      (3 : Nat) ∉ (stop_server ⟨8081, some ⟨3⟩⟩ ⟨[3], 4⟩ false).2.1.alive ∧
      (stop_server ⟨8081, some ⟨3⟩⟩ ⟨[3], 4⟩ false).2.2 =
        [.terminate 3, .waitTimeout 3, .kill 3]) := by
  have h := claim_C6_stop_timeout_force_kills ⟨8081, some ⟨3⟩⟩ ⟨[3], 4⟩ ⟨3⟩
    false rfl
  exact ⟨rfl, h.1, h.2.1, h.2.2.1 rfl⟩

/-- Claim C4: if spawning the child process fails, `start_server` catches the
failure and reports it (the `spawnFailed` action), propagates nothing (the
embedding returns normally), leaves the supervisor STOPPED with no process
handle, and the supervisor remains usable: a subsequent successful
`start_server` ends RUNNING with a handle. -/
theorem claim_C4_spawn_failure_caught (s : DevServer) (w : World)
    (b c : Bool) :
    (start_server s w false b).1.server_process = none ∧
    Action.spawnFailed ∈ (start_server s w false b).2.2 ∧
    (start_server (start_server s w false b).1 (start_server s w false b).2.1
        true c).1.server_process =
      some ⟨(start_server s w false b).2.1.nextPid⟩ := by
  cases h : s.server_process <;> cases b <;>
    simp [start_server, stop_server, h]

/-! ## Supervisor invariant lemmas -/

theorem alive_nil_of_none (s : DevServer) (w : World) (h : Inv s w)
    (hn : s.server_process = none) : w.alive = [] := by
  rcases h with ⟨h1, -, -, -⟩
  cases ha : w.alive with
  | nil => rfl
  | cons a t =>
    have hmem : a ∈ w.alive := by rw [ha]; exact List.mem_cons_self a t
    have := h1 a hmem
    rw [hn] at this
    cases this

theorem stop_server_clears (s : DevServer) (w : World) (b : Bool)
    (h : Inv s w) :
    (stop_server s w b).1.server_process = none ∧
    (stop_server s w b).2.1.alive = [] ∧
    (stop_server s w b).2.1.nextPid = w.nextPid ∧
    (stop_server s w b).1.port = s.port := by
  cases hs : s.server_process with
  | none =>
    have ha := alive_nil_of_none s w h hs
    unfold stop_server
    rw [hs]
    exact ⟨hs, ha, rfl, rfl⟩
  | some p =>
    have hall : ∀ q ∈ w.alive, q = p.pid := by
      intro q hq
      have hsq := h.1 q hq
      rw [hs] at hsq
      exact (congrArg Proc.pid (Option.some.inj hsq)).symm
    unfold stop_server
    rw [hs]
    cases b <;> simp [List.filter_eq_nil_iff] <;> exact hall

theorem Inv_stop (s : DevServer) (w : World) (b : Bool) (h : Inv s w) :
    Inv (stop_server s w b).1 (stop_server s w b).2.1 := by
  obtain ⟨hn, ha, -, -⟩ := stop_server_clears s w b h
  refine ⟨?_, ?_, ?_, ?_⟩
  · rw [ha]; intro q hq; simp at hq
  · rw [ha]; exact List.nodup_nil
  · rw [ha]; intro q hq; simp at hq
  · rw [hn]; intro p hp; cases hp

theorem start_pre (s : DevServer) (w : World) (c : Bool) (h : Inv s w) :
    ((if s.server_process.isSome then stop_server s w c
      else (s, w, [])).1.server_process = none) ∧
    ((if s.server_process.isSome then stop_server s w c
      else (s, w, [])).2.1.alive = []) ∧
    ((if s.server_process.isSome then stop_server s w c
      else (s, w, [])).2.1.nextPid = w.nextPid) := by
  cases hs : s.server_process with
  | none =>
    have ha := alive_nil_of_none s w h hs
    exact ⟨hs, ha, rfl⟩
  | some p =>
    obtain ⟨hn, ha, hnp, -⟩ := stop_server_clears s w c h
    exact ⟨hn, ha, hnp⟩

theorem Inv_start (s : DevServer) (w : World) (b c : Bool) (h : Inv s w) :
    Inv (start_server s w b c).1 (start_server s w b c).2.1 := by
  obtain ⟨hn, ha, hnp⟩ := start_pre s w c h
  unfold start_server
  rcases hpre : (if s.server_process.isSome then stop_server s w c
    else (s, w, [])) with ⟨s1, w1, tr1⟩
  rw [hpre] at hn ha hnp
  dsimp at hn ha hnp ⊢
  cases b with
  | true =>
    dsimp
    refine ⟨?_, ?_, ?_, ?_⟩
    · intro q hq
      rw [ha] at hq
      simp only [List.mem_cons, List.not_mem_nil, or_false] at hq
      simp [hq]
    · rw [ha]; simp
    · intro q hq
      rw [ha] at hq
      simp only [List.mem_cons, List.not_mem_nil, or_false] at hq
      simp [hq]
    · intro p hp
      simp only [Option.some.injEq] at hp
      simp [← hp]
  | false =>
    dsimp
    exact ⟨fun q hq => by rw [ha] at hq; simp at hq,
           by rw [ha]; exact List.nodup_nil,
           fun q hq => by rw [ha] at hq; simp at hq,
           fun p hp => by rw [hn] at hp; cases hp⟩

theorem Inv_restart (s : DevServer) (w : World) (b c : Bool) (h : Inv s w) :
    Inv (restart_server s w b c).1 (restart_server s w b c).2.1 := by
  have h1 := Inv_stop s w b h
  have h2 := Inv_start (stop_server s w b).1 (stop_server s w b).2.1 c b h1
  unfold restart_server
  rcases hstop : stop_server s w b with ⟨s1, w1, tr1⟩
  rw [hstop] at h2
  dsimp at h2 ⊢
  rcases hstart : start_server s1 w1 c b with ⟨s2, w2, tr2⟩
  rw [hstart] at h2
  dsimp at h2 ⊢
  exact h2

theorem Inv_length_le_one (s : DevServer) (w : World) (h : Inv s w) :
    w.alive.length ≤ 1 := by
  rcases h with ⟨h1, h2, -, -⟩
  cases ha : w.alive with
  | nil => simp
  | cons a t =>
    cases ht : t with
    | nil => simp
    | cons a2 t2 =>
      exfalso
      rw [ht] at ha
      have hma : a ∈ w.alive := by rw [ha]; simp
      have hma2 : a2 ∈ w.alive := by rw [ha]; simp
      have e1 := h1 a hma
      have e2 := h1 a2 hma2
      rw [e1] at e2
      have : a = a2 := congrArg Proc.pid (Option.some.inj e2)
      rw [ha] at h2
      rw [this] at h2
      simp [List.nodup_cons] at h2

theorem restart_alive (s : DevServer) (w : World) (b c : Bool)
    (h : Inv s w) :
    (restart_server s w b c).2.1.alive = (if c then [w.nextPid] else []) ∧
    (restart_server s w b c).1.server_process =
      (if c then some ⟨w.nextPid⟩ else none) := by
  obtain ⟨hn, ha, hnp, -⟩ := stop_server_clears s w b h
  unfold restart_server
  rcases hstop : stop_server s w b with ⟨s1, w1, tr1⟩
  rw [hstop] at hn ha hnp
  dsimp at hn ha hnp ⊢
  unfold start_server
  rw [hn]
  cases c <;> simp [ha, hnp, hn]

theorem restart_kill_mem (s : DevServer) (w : World) (c : Bool) (p : Proc)
    (hs : s.server_process = some p) :
    Action.kill p.pid ∈ (restart_server s w false c).2.2 := by
  unfold restart_server stop_server
  rw [hs]
  dsimp
  rcases start_server _ _ c false with ⟨s2, w2, tr2⟩
  simp

/-- Claim C2, counterexample: `restart_server` does NOT always end in state
RUNNING.  From a RUNNING state, a restart during which the spawn fails ends
with no process handle (STOPPED). -/
theorem claim_C2_counterexample :
    (restart_server ⟨8081, some ⟨0⟩⟩ ⟨[0], 1⟩ true false).1.server_process =
      none := by
  rfl

/-- Claim C2 (amended): under the supervisor invariant, if the spawn
succeeds, `restart_server` ends in state RUNNING holding a freshly created
handle, different from any pre-restart handle; if the spawn fails, it ends
STOPPED with no handle. -/
theorem claim_C2_restart_outcome (s : DevServer) (w : World) (b : Bool)
    (h : Inv s w) :
    ((restart_server s w b true).1.server_process = some ⟨w.nextPid⟩ ∧
      ∀ p : Proc, s.server_process = some p → (⟨w.nextPid⟩ : Proc) ≠ p) ∧
    (restart_server s w b false).1.server_process = none := by
  have h1 := (restart_alive s w b true h).2
  have h2 := (restart_alive s w b false h).2
  rw [if_pos rfl] at h1
  rw [if_neg (by simp)] at h2
  refine ⟨⟨h1, ?_⟩, h2⟩
  intro p hp heq
  have hlt := h.2.2.2 p hp
  have hpid : w.nextPid = p.pid := congrArg Proc.pid heq
  omega

theorem claim_C2_witness :
    (restart_server ⟨8081, some ⟨0⟩⟩ ⟨[0], 1⟩ true true).1.server_process =
      some ⟨1⟩ ∧
    (⟨1⟩ : Proc) ≠ (⟨0⟩ : Proc) := by
  have hInv : Inv ⟨8081, some ⟨0⟩⟩ ⟨[0], 1⟩ := by
    refine ⟨?_, ?_, ?_, ?_⟩
    · decide
    · decide
    · decide
    · intro p hp
      cases Option.some.inj hp
      decide
  have h := claim_C2_restart_outcome ⟨8081, some ⟨0⟩⟩ ⟨[0], 1⟩ true hInv
  exact ⟨h.1.1, h.1.2 ⟨0⟩ rfl⟩

/-- Claim C5: under the supervisor/world invariant `Inv` — implying at most
one live child process — every operation (`start_server`, `stop_server`,
`restart_server`, for any spawn/timeout outcome) preserves the invariant, so
at most one `ServerProcess` is ever active; `stop_server` leaves no live
child at all, so the world in which `restart_server`'s (and the internal
stop of `start_server`'s) new process is spawned has the old one fully
terminated: after a restart the old pid is not alive, and if the graceful
wait timed out the old process was force-killed. -/
theorem claim_C5_single_active_process (s : DevServer) (w : World)
    (b c : Bool) (h : Inv s w) :
    Inv (start_server s w b c).1 (start_server s w b c).2.1 ∧
    Inv (stop_server s w b).1 (stop_server s w b).2.1 ∧
    Inv (restart_server s w b c).1 (restart_server s w b c).2.1 ∧
    w.alive.length ≤ 1 ∧
    (start_server s w b c).2.1.alive.length ≤ 1 ∧
    (restart_server s w b c).2.1.alive.length ≤ 1 ∧
    (stop_server s w b).2.1.alive = [] ∧
    (∀ p : Proc, s.server_process = some p →
      p.pid ∉ (restart_server s w b c).2.1.alive ∧
      (b = false → Action.kill p.pid ∈ (restart_server s w b c).2.2)) := by
  refine ⟨Inv_start s w b c h, Inv_stop s w b h, Inv_restart s w b c h,
    Inv_length_le_one s w h,
    Inv_length_le_one _ _ (Inv_start s w b c h),
    Inv_length_le_one _ _ (Inv_restart s w b c h),
    (stop_server_clears s w b h).2.1, ?_⟩
  intro p hp
  constructor
  · have hal := (restart_alive s w b c h).1
    rw [hal]
    have hlt := h.2.2.2 p hp
    cases c with
    | false => simp
    | true => simp; omega
  · intro hb
    rw [hb]
    exact restart_kill_mem s w c p hp

theorem claim_C5_witness :
    Inv (stop_server ⟨8081, some ⟨0⟩⟩ ⟨[0], 1⟩ false).1
        (stop_server ⟨8081, some ⟨0⟩⟩ ⟨[0], 1⟩ false).2.1 ∧
    ((⟨[0], 1⟩ : World).alive.length ≤ 1) ∧
    (stop_server ⟨8081, some ⟨0⟩⟩ ⟨[0], 1⟩ false).2.1.alive = [] ∧
    (0 : Nat) ∉ (restart_server ⟨8081, some ⟨0⟩⟩ ⟨[0], 1⟩ false true).2.1.alive ∧
    Action.kill 0 ∈ (restart_server ⟨8081, some ⟨0⟩⟩ ⟨[0], 1⟩ false true).2.2 := by
  have hInv : Inv ⟨8081, some ⟨0⟩⟩ ⟨[0], 1⟩ := by
    refine ⟨?_, ?_, ?_, ?_⟩
    · decide
    · decide
    · decide
    · intro p hp
      cases Option.some.inj hp
      decide
  have h := claim_C5_single_active_process ⟨8081, some ⟨0⟩⟩ ⟨[0], 1⟩
    false true hInv
  obtain ⟨hm, hk⟩ := h.2.2.2.2.2.2.2 ⟨0⟩ rfl
  exact ⟨h.2.1, h.2.2.2.1, h.2.2.2.2.2.2.1, hm, hk rfl⟩

/-! ## Helper lemmas

Python's `str.lower` fixes `.` and `/`, is idempotent, and therefore
commutes with the `pathlib` name/suffix computations. -/

theorem lowerChar_dot (c : Char) : lowerChar c = '.' ↔ c = '.' := by
  unfold lowerChar
  split <;> first | decide | rfl

theorem lowerChar_slash (c : Char) : lowerChar c = '/' ↔ c = '/' := by
  unfold lowerChar
  split <;> first | decide | rfl

theorem lowerChar_cases (c : Char) :
    lowerChar c = c ∨ lowerChar c ∈
      ['a','b','c','d','e','f','g','h','i','j','k','l','m',
       'n','o','p','q','r','s','t','u','v','w','x','y','z'] := by
  unfold lowerChar
  split <;> first | decide | exact Or.inl rfl

theorem lowerChar_idem (c : Char) : lowerChar (lowerChar c) = lowerChar c := by
  rcases lowerChar_cases c with h | h
  · rw [h]; exact h
  · simp only [List.mem_cons, List.not_mem_nil, or_false] at h
    rcases h with h|h|h|h|h|h|h|h|h|h|h|h|h|h|h|h|h|h|h|h|h|h|h|h|h|h <;>
      rw [h] <;> decide

theorem lowerStr_idem (s : List Char) : lowerStr (lowerStr s) = lowerStr s := by
  simp only [lowerStr, List.map_map]
  exact List.map_congr_left fun c _ => lowerChar_idem c

theorem splitOnSlash_ne_nil (p : List Char) : splitOnSlash p ≠ [] := by
  cases p with
  | nil => simp [splitOnSlash]
  | cons c rest =>
    unfold splitOnSlash
    cases h : splitOnSlash rest with
    | nil => simp
    | cons a t =>
      intro hx
      split at hx
      · simp at hx
      · split at hx <;> simp_all

theorem splitOnSlash_lower (p : List Char) :
    splitOnSlash (lowerStr p) = (splitOnSlash p).map lowerStr := by
  induction p with
  | nil => rfl
  | cons c rest ih =>
    cases hs : splitOnSlash rest with
    | nil => exact absurd hs (splitOnSlash_ne_nil rest)
    | cons a t =>
      show splitOnSlash (lowerChar c :: lowerStr rest) = _
      unfold splitOnSlash
      rw [ih, hs]
      dsimp only [List.map_cons]
      by_cases hc : c = '/'
      · rw [if_pos ((lowerChar_slash c).mpr hc), if_pos hc]
        rfl
      · rw [if_neg (fun h => hc ((lowerChar_slash c).mp h)), if_neg hc]
        rfl

theorem lowerStr_eq_nil_iff (c : List Char) : lowerStr c = [] ↔ c = [] := by
  simp [lowerStr]

theorem lowerStr_eq_dot_iff (c : List Char) : lowerStr c = ['.'] ↔ c = ['.'] := by
  cases c with
  | nil => simp [lowerStr]
  | cons d t =>
    cases t with
    | nil => simp [lowerStr, lowerChar_dot]
    | cons e u => simp [lowerStr]

theorem keepComp_lower (c : List Char) : keepComp (lowerStr c) = keepComp c := by
  by_cases h1 : c = []
  · subst h1; rfl
  by_cases h2 : c = ['.']
  · subst h2; rfl
  have l1 : lowerStr c ≠ [] := fun h => h1 ((lowerStr_eq_nil_iff c).mp h)
  have l2 : lowerStr c ≠ ['.'] := fun h => h2 ((lowerStr_eq_dot_iff c).mp h)
  simp [keepComp, h1, h2, l1, l2]

theorem getLastD_map_lower (l : List (List Char)) (d : List Char) :
    (l.map lowerStr).getLastD (lowerStr d) = lowerStr (l.getLastD d) := by
  induction l generalizing d with
  | nil => rfl
  | cons a t ih =>
    rw [List.map_cons, List.getLastD_cons, List.getLastD_cons]
    exact ih a

theorem pathName_lower (p : List Char) :
    pathName (lowerStr p) = lowerStr (pathName p) := by
  unfold pathName
  rw [splitOnSlash_lower, List.filter_map]
  have hcomp : (keepComp ∘ lowerStr) = keepComp := funext keepComp_lower
  rw [hcomp]
  exact getLastD_map_lower (List.filter keepComp (splitOnSlash p)) []

theorem lastDotIdx_lower (n : List Char) :
    lastDotIdx (lowerStr n) = lastDotIdx n := by
  induction n with
  | nil => rfl
  | cons c t ih =>
    show lastDotIdx (lowerChar c :: lowerStr t) = _
    unfold lastDotIdx
    rw [ih]
    cases lastDotIdx t with
    | some i => rfl
    | none =>
      by_cases hc : c = '.'
      · rw [if_pos ((lowerChar_dot c).mpr hc), if_pos hc]
      · rw [if_neg (fun h => hc ((lowerChar_dot c).mp h)), if_neg hc]

theorem pySuffix_lower (n : List Char) :
    pySuffix (lowerStr n) = lowerStr (pySuffix n) := by
  unfold pySuffix
  rw [lastDotIdx_lower]
  cases lastDotIdx n with
  | none => rfl
  | some i =>
    have hlen : (lowerStr n).length = n.length := List.length_map _ _
    dsimp only
    rw [hlen]
    by_cases hi : 0 < i ∧ i + 1 < n.length
    · rw [if_pos hi, if_pos hi]
      exact (List.map_drop lowerChar n i).symm
    · rw [if_neg hi, if_neg hi]
      rfl

theorem suffixLower_lower (p : List Char) :
    suffixLower (lowerStr p) = suffixLower p := by
  unfold suffixLower
  rw [pathName_lower, pySuffix_lower, lowerStr_idem]


/-! ## Claim theorems: watcher and orchestration -/

/-- Claim C3, counterexample: the boundary case refutes the claim as stated.
An event on `a.html` occurring exactly 1 second after the last accepted
event (so ≥ 1s after it) does NOT trigger a restart and leaves the
timestamp unchanged, because the code requires a strictly greater
difference (`current_time - self.last_restart > self.debounce_delay`). -/
theorem claim_C3_counterexample :
    ((1 : ℚ) - ReloadHandler.init.last_restart ≥ 1) ∧
    on_modified ReloadHandler.init ⟨false, "a.html".toList⟩ 1 =
      (ReloadHandler.init, 0) := by
  constructor
  · norm_num [ReloadHandler.init]
  · unfold on_modified
    rw [if_neg (by simp), if_pos (by decide),
      if_neg (by norm_num [ReloadHandler.init, debounce_delay])]

/-- Claim C3 (amended): for every non-directory file event whose extension
is in the allow-set: if the event occurs strictly more than 1 second after
the last accepted event it triggers exactly one restart and the accepted
timestamp is updated to the event time; if it occurs at most 1 second after
(including exactly 1 s), it is silently dropped and the timestamp is
unchanged. -/
theorem claim_C3_debounce (s : ReloadHandler) (e : FSEvent) (t : ℚ)
    (hdir : e.is_directory = false)
    (hext : suffixLower e.src_path ∈ relevant_extensions) :
    (t - s.last_restart > debounce_delay →
      on_modified s e t = ({ last_restart := t }, 1)) ∧
    (t - s.last_restart ≤ debounce_delay →
      on_modified s e t = (s, 0)) := by
  unfold on_modified
  rw [hdir]
  constructor
  · intro hgt
    rw [if_neg (by simp), if_pos hext, if_pos hgt]
  · intro hle
    rw [if_neg (by simp), if_pos hext, if_neg (not_lt.mpr hle)]

theorem claim_C3_witness :
    (suffixLower "a.html".toList ∈ relevant_extensions) ∧
    on_modified ⟨0⟩ ⟨false, "a.html".toList⟩ 2 = (⟨2⟩, 1) ∧
    on_modified ⟨0⟩ ⟨false, "a.html".toList⟩ (1/2) = (⟨0⟩, 0) := by
  have h1 := claim_C3_debounce ⟨0⟩ ⟨false, "a.html".toList⟩ 2 rfl (by decide)
  have h2 := claim_C3_debounce ⟨0⟩ ⟨false, "a.html".toList⟩ (1/2) rfl
    (by decide)
  refine ⟨by decide, h1.1 ?_, h2.2 ?_⟩
  · show debounce_delay < 2 - (0 : ℚ)
    norm_num [debounce_delay]
  · show 1/2 - (0 : ℚ) ≤ debounce_delay
    norm_num [debounce_delay]

/-- Claim C8: directory events, and non-directory file events whose
(lowercased) extension is outside the allow-set, never trigger a restart and
leave the debounce timestamp unchanged, regardless of timing. -/
theorem claim_C8_irrelevant_no_restart (s : ReloadHandler) (e : FSEvent)
    (t : ℚ)
    (h : e.is_directory = true ∨
      suffixLower e.src_path ∉ relevant_extensions) :
    on_modified s e t = (s, 0) := by
  rcases h with h | h
  · simp [on_modified, h]
  · cases hd : e.is_directory <;> simp [on_modified, hd, h]

theorem claim_C8_witness :
    (suffixLower "photo.png".toList ∉ relevant_extensions) ∧
    on_modified ⟨0⟩ ⟨false, "photo.png".toList⟩ 5 = (⟨0⟩, 0) :=
  ⟨by decide,
   claim_C8_irrelevant_no_restart ⟨0⟩ ⟨false, "photo.png".toList⟩ 5
     (Or.inr (by decide))⟩

/-- Claim C9: extension matching is case-insensitive.  Lowercasing the event
path character-wise (in particular, replacing any upper- or mixed-case
variant of an allow-set extension by its lowercase form) yields exactly the
same `on_modified` result — same restart count, same state — as the
original path. -/
theorem claim_C9_case_insensitive (s : ReloadHandler) (e : FSEvent)
    (t : ℚ) :
    on_modified s ⟨e.is_directory, lowerStr e.src_path⟩ t =
      on_modified s e t := by
  unfold on_modified
  dsimp
  rw [suffixLower_lower]

/-- Claim C10: only modification events can trigger a restart.  Creation and
deletion events dispatch to the no-op base-class handlers of
`FileSystemEventHandler` (only `on_modified` is overridden), trigger no
restart, and leave the debounce state unchanged. -/
theorem claim_C10_only_modified_triggers (s : ReloadHandler)
    (k : EventKind) (e : FSEvent) (t : ℚ)
    (h : k = .created ∨ k = .deleted) :
    handleEvent s k e t = (s, 0) := by
  rcases h with h | h <;> rw [h] <;> rfl

theorem claim_C10_witness :
    (EventKind.created = EventKind.created ∨
      EventKind.created = EventKind.deleted) ∧
    handleEvent ⟨0⟩ .created ⟨false, "a.html".toList⟩ 5 = (⟨0⟩, 0) :=
  ⟨Or.inl rfl,
   claim_C10_only_modified_triggers ⟨0⟩ .created ⟨false, "a.html".toList⟩ 5
     (Or.inl rfl)⟩

/-- Claim C1 is contradicted by the code as shipped: `__main__` installs
`signal_handler`, so an interrupt makes the main thread raise `SystemExit`
(from `sys.exit(0)`), which the `except KeyboardInterrupt` clause in `run`
does not catch.  The cleanup after the main loop is skipped: from a running
state (child pid 0 alive, observer neither stopped nor joined), after the
interrupt the observer is still not stopped or joined and the child pid is
still alive, and the cleanup flag is `false`.  By contrast, under the
default SIGINT behaviour (`KeyboardInterrupt`), the cleanup would run as
the claim describes: observer stopped and joined, child no longer alive. -/
theorem claim_C1_interrupt_skips_cleanup :
    interruptException true = .systemExit ∧
    run_on_interrupt (interruptException true)
        ⟨⟨8081, some ⟨0⟩⟩, some ⟨false, false⟩, ⟨[0], 1⟩⟩ true =
      (⟨⟨8081, some ⟨0⟩⟩, some ⟨false, false⟩, ⟨[0], 1⟩⟩, false) ∧
    run_on_interrupt .keyboardInterrupt
        ⟨⟨8081, some ⟨0⟩⟩, some ⟨false, false⟩, ⟨[0], 1⟩⟩ true =
      (⟨⟨8081, none⟩, some ⟨true, true⟩, ⟨[], 1⟩⟩, true) := by
  exact ⟨rfl, rfl, rfl⟩

end CannonPop
